import Mathlib

/-!
Verification of the Transformer notebook (`src/transformer.ipynb`).

The file embeds the notebook's modules at two levels:

* a computable *shape calculus* (`List ℕ` shapes, `Option` for shape
  errors) modelling the tensor-shape semantics of the `torch` operations
  at exactly the call patterns the notebook uses (`nn.Linear` on rank-3
  input, `view(batch, -1, num_heads, head_dim)`, `transpose`, batched
  rank-4 `matmul`, `masked_fill` broadcasting);

* a value-level embedding over `ℝ` (tensors as functions on `Fin`
  indices), giving the exact arithmetic of `PositionalEncoding`,
  `MultiHeadAttention`, `FeedForward`, `EncoderLayer` and `DecoderLayer`
  forward passes, with `Except` results where the Python code can raise.

Python name-resolution slips in the notebook (`head_dim`, `dff`,
`self.Dropout`) are modelled by explicit scope/attribute lookup tables
listing exactly the names the corresponding Python scopes bind.
-/

set_option maxHeartbeats 1000000

/-- Errors the notebook's Python code can raise. -/
inductive PyError where
  | nameError
  | attributeError
  | assertionError
  | broadcastError
  | shapeError
deriving DecidableEq, Repr

/-- Boolean check that an `Except` result is a success. -/
def exceptOk {ε α : Type} : Except ε α → Bool
  | .ok _ => true
  | .error _ => false

/-! ## Shape calculus

Shapes are lists of dimension sizes, outermost first.  Each operation
returns `none` exactly when the corresponding `torch` call raises a
shape error at the call patterns used in the notebook. -/

/-- Shape semantics of `nn.Linear(din, dout)` applied to a rank-3 input,
the only rank the notebook applies its linear layers to. -/
def linear3_shape (din dout : ℕ) : List ℕ → Option (List ℕ)
  | [b, l, k] => if k = din then some [b, l, dout] else none
  | _ => none

/-- Shape semantics of `x.view(bsz, -1, nh, hdim)` on a rank-3 `x`:
the product of the known target dimensions must be nonzero and divide
the element count, and the `-1` dimension is inferred as the quotient. -/
def view3to4_shape (bsz nh hdim : ℕ) : List ℕ → Option (List ℕ)
  | [b, l, k] =>
    if b = bsz ∧ bsz * nh * hdim ≠ 0 ∧ (bsz * nh * hdim) ∣ (b * l * k) then
      some [bsz, b * l * k / (bsz * nh * hdim), nh, hdim]
    else none
  | _ => none

/-- Shape semantics of `x.view(bsz, -1, dmodel)` on a rank-4 `x`
(after `.contiguous()`). -/
def view4to3_shape (bsz dmodel : ℕ) : List ℕ → Option (List ℕ)
  | [b, l, h, k] =>
    if b = bsz ∧ bsz * dmodel ≠ 0 ∧ (bsz * dmodel) ∣ (b * l * h * k) then
      some [bsz, b * l * h * k / (bsz * dmodel), dmodel]
    else none
  | _ => none

/-- Shape semantics of `x.transpose(1, 2)` on a rank-4 tensor. -/
def transpose12_shape : List ℕ → Option (List ℕ)
  | [a, b, c, d] => some [a, c, b, d]
  | _ => none

/-- Shape semantics of `x.transpose(-2, -1)` on a rank-4 tensor. -/
def transposeLast2_shape : List ℕ → Option (List ℕ)
  | [a, b, c, d] => some [a, b, d, c]
  | _ => none

/-- Shape semantics of batched `torch.matmul` on two rank-4 tensors with
equal batch dimensions, the call pattern used in attention. -/
def matmul4_shape : List ℕ → List ℕ → Option (List ℕ)
  | [a, b, m, n], [a2, b2, n2, p] =>
    if a = a2 ∧ b = b2 ∧ n = n2 then some [a, b, m, p] else none
  | _, _ => none

/-- Right-aligned broadcast check: `ms` broadcasts to `ts` when it is no
longer than `ts` and each aligned dimension matches or is `1`. -/
def broadcastableTo (ms ts : List ℕ) : Bool :=
  decide (ms.length ≤ ts.length) &&
    (List.zip ms.reverse ts.reverse).all (fun p => p.1 == p.2 || p.1 == 1)

/-- Shape semantics of `scores.masked_fill(mask == 0, -1e9)`: the mask
must broadcast against the score shape; the shape is unchanged. -/
def maskedFill_shape (mask : Option (List ℕ)) (s : List ℕ) : Option (List ℕ) :=
  match mask with
  | none => some s
  | some m => if broadcastableTo m s then some s else none

/-- Shape semantics of `MultiHeadAttention.scaled_dot_product_attention`:
`matmul(Q, K.transpose(-2, -1))` (division by the scalar `scale` and the
softmax preserve the shape), optional `masked_fill`, then
`matmul(attn_probs, V)`. -/
def sdpa_shape (mask : Option (List ℕ)) (q k v : List ℕ) : Option (List ℕ) :=
  (transposeLast2_shape k).bind fun kt =>
    (matmul4_shape q kt).bind fun s =>
      (maskedFill_shape mask s).bind fun s2 =>
        matmul4_shape s2 v

/-- Shape semantics of `MultiHeadAttention._project`:
`linear(x).view(x.size(0), -1, num_heads, head_dim).transpose(1, 2)`. -/
def project_shape (dmodel nh hdim : ℕ) : List ℕ → Option (List ℕ)
  | [b, l, k] =>
    (linear3_shape dmodel dmodel [b, l, k]).bind fun s1 =>
      (view3to4_shape b nh hdim s1).bind transpose12_shape
  | _ => none

/-- Shape semantics of `MultiHeadAttention.forward(x_k, x_q, x_v, mask)`:
the three inputs are projected (query from the *second* argument), the
scaled dot-product attention runs per head, and the heads are merged with
`transpose(1, 2)` followed by `view(x_q.size(0), -1, d_model)` and the
output projection. -/
def mhaForward_shape (dmodel nh hdim : ℕ)
    (sk sq sv : List ℕ) (mask : Option (List ℕ)) : Option (List ℕ) :=
  match sq with
  | [bq, lq, kq] =>
    (project_shape dmodel nh hdim [bq, lq, kq]).bind fun q =>
      (project_shape dmodel nh hdim sk).bind fun k =>
        (project_shape dmodel nh hdim sv).bind fun v =>
          (sdpa_shape mask q k v).bind fun a =>
            (transpose12_shape a).bind fun a2 =>
              (view4to3_shape bq dmodel a2).bind (linear3_shape dmodel dmodel)
  | _ => none

/-- Shape semantics of the decoder layer's cross-attention call
`self.cross_attn(norm_layer1, encoder_output, encoder_output, cross_mask)`
against `forward(self, x_k, x_q, x_v, mask)`: the decoder state (length
`Lt`) lands in the key slot and the encoder output (length `Ls`) in the
query and value slots.  `head_dim` is `d_model // num_heads` as stored by
`__init__`. -/
def decoderCrossAttn_shape (B Lt Ls dmodel nh : ℕ) : Option (List ℕ) :=
  mhaForward_shape dmodel nh (dmodel / nh)
    [B, Lt, dmodel] [B, Ls, dmodel] [B, Ls, dmodel] none

/-! ## Constructor embeddings

`MultiHeadAttention.__init__` and `FeedForward.__init__` each read a bare
name that the enclosing Python scope never binds.  The lookup tables
below list exactly the names bound in each `__init__` body (its
parameters; neither body creates any other local), so the reads resolve
to `none` and raise `NameError`. -/

/-- Result of a successful `MultiHeadAttention.__init__`: the stored
configuration attributes. -/
structure MHAInitResult where
  d_model : ℕ
  num_heads : ℕ
  head_dim : ℕ
deriving DecidableEq, Repr

/-- Bare names visible in the body of `MultiHeadAttention.__init__`:
only the parameters `d_model` and `num_heads`.  `head_dim` is assigned
only as the attribute `self.head_dim`, never as a local. -/
def mhaInitScope (d_model num_heads : ℕ) (name : String) : Option ℕ :=
  if name = "d_model" then some d_model
  else if name = "num_heads" then some num_heads
  else none

/-- `MultiHeadAttention.__init__(d_model, num_heads)`: stores
`self.head_dim = d_model // num_heads`, then evaluates
`assert head_dim * num_heads == d_model`, whose bare `head_dim` is
resolved through the scope table. -/
def mhaInit (d_model num_heads : ℕ) : Except PyError MHAInitResult :=
  let head_dim_attr := d_model / num_heads
  match mhaInitScope d_model num_heads "head_dim" with
  | none => .error .nameError
  | some hd =>
    if hd * num_heads = d_model then
      .ok ⟨d_model, num_heads, head_dim_attr⟩
    else .error .assertionError

/-- Result of a successful `FeedForward.__init__`: the `(in, out)`
dimension pairs of the two linear layers. -/
structure FFInitResult where
  linear1 : ℕ × ℕ
  linear2 : ℕ × ℕ
deriving DecidableEq, Repr

/-- Bare names visible in the body of `FeedForward.__init__`: only the
parameters `d_model` and `d_ff`.  The name `dff` is never bound. -/
def ffInitScope (d_model d_ff : ℕ) (name : String) : Option ℕ :=
  if name = "d_model" then some d_model
  else if name = "d_ff" then some d_ff
  else none

/-- `FeedForward.__init__(d_model, d_ff=2048)`: builds
`nn.Linear(d_model, d_ff)`, then `nn.Linear(dff, d_model)` whose bare
`dff` is resolved through the scope table (the `nn.Dropout(0.1)` line is
never reached). -/
def ffInit (d_model d_ff : ℕ) : Except PyError FFInitResult :=
  let lin1 := (d_model, d_ff)
  match ffInitScope d_model d_ff "dff" with
  | none => .error .nameError
  | some dff => .ok ⟨lin1, (dff, d_model)⟩

/-! ## Value-level embedding

Tensors are functions on `Fin` indices with real entries; a rank-3
hidden-state tensor of shape `(B, L, D)` is `T3 B L D`, the per-head
rank-4 tensors are `T4`.  `d_model` appears as `H * hd` so that the
head split/merge of `view` and `transpose` is the row-major index
arithmetic the contiguous `view` performs. -/

/-- Rank-3 tensor of shape `(B, L, D)`. -/
def T3 (B L D : ℕ) : Type := Fin B → Fin L → Fin D → ℝ

/-- Rank-4 tensor of shape `(B, H, L, D)`. -/
def T4 (B H L D : ℕ) : Type := Fin B → Fin H → Fin L → Fin D → ℝ

/-- Parameters of `nn.Linear(din, dout)`. -/
structure Lin (din dout : ℕ) where
  w : Fin dout → Fin din → ℝ
  b : Fin dout → ℝ

/-- Application of `nn.Linear` along the last dimension of a rank-3
tensor. -/
noncomputable def linApp {B L din dout : ℕ} (f : Lin din dout) (x : T3 B L din) :
    T3 B L dout :=
  fun i l o => (∑ j, f.w o j * x i l j) + f.b o

/-- Row-major merged index of head `h`, channel `k`: position
`h * hd + k` of the flattened `(num_heads, head_dim)` pair. -/
def finMerge {H hd : ℕ} (h : Fin H) (k : Fin hd) : Fin (H * hd) :=
  ⟨h.val * hd + k.val, by
    have h1 : h.val * hd + k.val < h.val * hd + hd := by
      have := k.isLt; omega
    have h2 : h.val * hd + hd = (h.val + 1) * hd := by ring
    have h3 : (h.val + 1) * hd ≤ H * hd :=
      Nat.mul_le_mul_right hd h.isLt
    omega⟩

/-- Head index of a merged channel index (row-major). -/
def finDivIdx {H hd : ℕ} (j : Fin (H * hd)) : Fin H :=
  ⟨j.val / hd, by
    have hpos : 0 < H * hd := Nat.lt_of_le_of_lt (Nat.zero_le _) j.isLt
    have hd0 : 0 < hd := Nat.pos_of_ne_zero fun h => by
      rw [h, Nat.mul_zero] at hpos; exact Nat.lt_irrefl 0 hpos
    exact (Nat.div_lt_iff_lt_mul hd0).mpr j.isLt⟩

/-- In-head channel index of a merged channel index (row-major). -/
def finModIdx {H hd : ℕ} (j : Fin (H * hd)) : Fin hd :=
  ⟨j.val % hd, by
    have hpos : 0 < H * hd := Nat.lt_of_le_of_lt (Nat.zero_le _) j.isLt
    have hd0 : 0 < hd := Nat.pos_of_ne_zero fun h => by
      rw [h, Nat.mul_zero] at hpos; exact Nat.lt_irrefl 0 hpos
    exact Nat.mod_lt _ hd0⟩

/-- Parameters of a `MultiHeadAttention` module with `H` heads of
dimension `hd` (`d_model = H * hd`): the four projections built in
`__init__`. -/
structure MultiHeadAttention (H hd : ℕ) where
  W_q : Lin (H * hd) (H * hd)
  W_k : Lin (H * hd) (H * hd)
  W_v : Lin (H * hd) (H * hd)
  W_o : Lin (H * hd) (H * hd)

/-- `MultiHeadAttention._project(x, linear)`:
`linear(x).view(batch, -1, num_heads, head_dim).transpose(1, 2)`,
i.e. row-major head split of the projected tensor. -/
noncomputable def MultiHeadAttention._project {B L H hd : ℕ}
    (x : T3 B L (H * hd)) (linear : Lin (H * hd) (H * hd)) : T4 B H L hd :=
  fun b h l k => linApp linear x b l (finMerge h k)

/-- The raw similarity scores of `scaled_dot_product_attention`:
`torch.matmul(Q, K.transpose(-2, -1)) / math.sqrt(head_dim)`. -/
noncomputable def MultiHeadAttention.attn_scores {B H Lq Lk hd : ℕ}
    (Q : T4 B H Lq hd) (K : T4 B H Lk hd) :
    Fin B → Fin H → Fin Lq → Fin Lk → ℝ :=
  fun b h i j => (∑ k, Q b h i k * K b h j k) / Real.sqrt hd

/-- `attn_scores.masked_fill(mask == 0, -1e9)` when a mask is supplied,
the scores unchanged otherwise. -/
noncomputable def MultiHeadAttention.masked_scores {B H Lq Lk : ℕ}
    (s : Fin B → Fin H → Fin Lq → Fin Lk → ℝ)
    (mask : Option (T4 B H Lq Lk)) :
    Fin B → Fin H → Fin Lq → Fin Lk → ℝ :=
  fun b h i j =>
    match mask with
    | none => s b h i j
    | some m => if m b h i j = 0 then -(1e9 : ℝ) else s b h i j

/-- `F.softmax(·, dim=-1)` over the key-position axis. -/
noncomputable def softmax_last {B H Lq Lk : ℕ}
    (s : Fin B → Fin H → Fin Lq → Fin Lk → ℝ) :
    Fin B → Fin H → Fin Lq → Fin Lk → ℝ :=
  fun b h i j => Real.exp (s b h i j) / ∑ j2, Real.exp (s b h i j2)

/-- The attention probabilities `attn_probs` computed inside
`scaled_dot_product_attention`: softmax of the (optionally masked)
scaled scores. -/
noncomputable def MultiHeadAttention.attn_probs {B H Lq Lk hd : ℕ}
    (Q : T4 B H Lq hd) (K : T4 B H Lk hd) (mask : Option (T4 B H Lq Lk)) :
    Fin B → Fin H → Fin Lq → Fin Lk → ℝ :=
  softmax_last (MultiHeadAttention.masked_scores
    (MultiHeadAttention.attn_scores Q K) mask)

/-- `MultiHeadAttention.scaled_dot_product_attention(Q, K, V, mask)`:
the probability-weighted sum of the value vectors. -/
noncomputable def MultiHeadAttention.scaled_dot_product_attention
    {B H Lq Lk hd : ℕ} (Q : T4 B H Lq hd) (K : T4 B H Lk hd)
    (V : T4 B H Lk hd) (mask : Option (T4 B H Lq Lk)) : T4 B H Lq hd :=
  fun b h i k =>
    ∑ j, MultiHeadAttention.attn_probs Q K mask b h i j * V b h j k

/-- Merging the heads:
`attn_output.transpose(1, 2).contiguous().view(batch, -1, d_model)`,
the row-major inverse of the head split. -/
noncomputable def headMerge {B H L hd : ℕ} (x : T4 B H L hd) :
    T3 B L (H * hd) :=
  fun b l j => x b (finDivIdx j) l (finModIdx j)

/-- `MultiHeadAttention.forward(x_k, x_q, x_v, mask)` exactly as in the
source: the *first* positional argument is projected by `W_k`, the
*second* by `W_q`, the *third* by `W_v`; the merged heads go through
`W_o`. -/
noncomputable def MultiHeadAttention.forward {B Lk Lq H hd : ℕ}
    (M : MultiHeadAttention H hd) (x_k : T3 B Lk (H * hd))
    (x_q : T3 B Lq (H * hd)) (x_v : T3 B Lk (H * hd))
    (mask : Option (T4 B H Lq Lk)) : T3 B Lq (H * hd) :=
  linApp M.W_o (headMerge
    (MultiHeadAttention.scaled_dot_product_attention
      (MultiHeadAttention._project x_q M.W_q)
      (MultiHeadAttention._project x_k M.W_k)
      (MultiHeadAttention._project x_v M.W_v) mask))

/-- Parameters of `nn.LayerNorm(d)`. -/
structure LayerNorm (d : ℕ) where
  gamma : Fin d → ℝ
  beta : Fin d → ℝ

/-- `nn.LayerNorm` forward over the last dimension with the default
`eps = 1e-5`. -/
noncomputable def LayerNorm.forward {B L d : ℕ} (p : LayerNorm d)
    (x : T3 B L d) : T3 B L d :=
  fun b l k =>
    p.gamma k * ((x b l k - (∑ j, x b l j) / d) /
      Real.sqrt ((∑ j, (x b l j - (∑ j2, x b l j2) / d) ^ 2) / d + 1e-5)) +
    p.beta k

/-- Parameters of a (successfully constructed) `FeedForward` module:
the two linear layers and the dropout operation, modelled as an
elementwise function (identity at inference). -/
structure FeedForward (d dff : ℕ) where
  linear1 : Lin d dff
  linear2 : Lin dff d
  dropout : ℝ → ℝ

/-- `FeedForward.forward(x)`:
`linear2(dropout(relu(linear1(x))))`, with `relu = max 0`. -/
noncomputable def FeedForward.forward {B L d dff : ℕ}
    (M : FeedForward d dff) (x : T3 B L d) : T3 B L d :=
  linApp M.linear2 (fun b l k => M.dropout (max 0 (linApp M.linear1 x b l k)))

/-! ## PositionalEncoding -/

/-- The multiplier applied to `position` in the notebook's table, read
off the source line
`div_term = torch.exp(torch.arange(0, d_model, 2)).float() * (-math.log(10000)/d_model)`:
entry `i` of `div_term` is `exp(2 i) * (-log(10000) / d_model)`. -/
noncomputable def codeDivTerm (d_model i : ℕ) : ℝ :=
  Real.exp (2 * i) * (-Real.log 10000 / d_model)

/-- The multiplier the specification prescribes for entry `i`:
`10000 ^ (-(2 i) / d_model)`. -/
noncomputable def specDivTerm (d_model i : ℕ) : ℝ :=
  (10000 : ℝ) ^ (-(2 * (i : ℝ)) / d_model)

/-- The notebook's precomputed table:
`pe[pos, 2i] = sin(pos * div_term[i])`, `pe[pos, 2i+1] = cos(pos * div_term[i])`,
as a function of the position and the channel index. -/
noncomputable def codePe (d_model pos j : ℕ) : ℝ :=
  if j % 2 = 0 then Real.sin (pos * codeDivTerm d_model (j / 2))
  else Real.cos (pos * codeDivTerm d_model (j / 2))

/-- State of a constructed `PositionalEncoding` module: its `d_model`,
the `max_len` of the registered buffer, and the dropout operation as an
elementwise function (identity at inference). -/
structure PositionalEncoding where
  d_model : ℕ
  max_len : ℕ
  dropout : ℝ → ℝ

/-- `PositionalEncoding.forward(x)`:
`self.dropout(x + self.pe[:, :x.size(1)].detach())`.  The slice keeps
`min L max_len` rows; the addition broadcasts along the sequence
dimension exactly when that sliced length equals `L` or equals `1`
(otherwise `torch` raises a broadcast error).  Row `l` of the sliced
table is read at index `l % L'`, which is `l` when the slice is full
and `0` when the length-1 slice is broadcast. -/
noncomputable def PositionalEncoding.forward {B L : ℕ}
    (M : PositionalEncoding) (x : T3 B L M.d_model) :
    Except PyError (T3 B L M.d_model) :=
  let L2 := min L M.max_len
  if L2 = L ∨ L2 = 1 then
    .ok (fun b l k => M.dropout (x b l k + codePe M.d_model (l.val % L2) k.val))
  else .error .broadcastError

/-! ## EncoderLayer and DecoderLayer -/

/-- Parameters of an `EncoderLayer`, as assigned in its `__init__`. -/
structure EncoderLayer (H hd dff : ℕ) where
  self_attn : MultiHeadAttention H hd
  ffn : FeedForward (H * hd) dff
  norm1 : LayerNorm (H * hd)
  norm2 : LayerNorm (H * hd)
  dropout : ℝ → ℝ

/-- `EncoderLayer.forward(x, mask=None)` exactly as in the source: the
self-attention is invoked as `self.self_attn(x, x, x)` — the layer's
`mask` parameter is *not* forwarded — followed by the two residual +
layer-norm steps. -/
noncomputable def EncoderLayer.forward {B L H hd dff : ℕ}
    (P : EncoderLayer H hd dff) (x : T3 B L (H * hd))
    (mask : Option (T4 B H L L)) : T3 B L (H * hd) :=
  let attn_output := MultiHeadAttention.forward P.self_attn x x x none
  let norm_layer1 :=
    LayerNorm.forward P.norm1 (fun b l k => x b l k + P.dropout (attn_output b l k))
  let ffn_output := FeedForward.forward P.ffn norm_layer1
  LayerNorm.forward P.norm2
    (fun b l k => norm_layer1 b l k + P.dropout (ffn_output b l k))

/-- Parameters of a `DecoderLayer`, as assigned in its `__init__`. -/
structure DecoderLayer (H hd dff : ℕ) where
  self_attn : MultiHeadAttention H hd
  cross_attn : MultiHeadAttention H hd
  ffn : FeedForward (H * hd) dff
  norm1 : LayerNorm (H * hd)
  norm2 : LayerNorm (H * hd)
  norm3 : LayerNorm (H * hd)
  dropout : ℝ → ℝ

/-- Python attribute lookup on a `DecoderLayer` instance restricted to
its elementwise-callable attributes; `__init__` assigns exactly one such
attribute, named `dropout` (lower-case). -/
def DecoderLayer.dropout_attr {H hd dff : ℕ} (P : DecoderLayer H hd dff)
    (name : String) : Option (ℝ → ℝ) :=
  if name = "dropout" then some P.dropout else none

/-- `DecoderLayer.forward(x, encoder_output, self_mask, cross_mask)`
exactly as in the source.  The cross-attention call is
`self.cross_attn(norm_layer1, encoder_output, encoder_output, cross_mask)`,
whose first positional argument fills the `x_k` slot.  The final
residual step evaluates `self.Dropout(ffn_output)`; the attribute lookup
for `Dropout` is resolved through `DecoderLayer.dropout_attr`. -/
noncomputable def DecoderLayer.forward {B L H hd dff : ℕ}
    (P : DecoderLayer H hd dff) (x : T3 B L (H * hd))
    (encoder_output : T3 B L (H * hd))
    (self_mask cross_mask : Option (T4 B H L L)) :
    Except PyError (T3 B L (H * hd)) :=
  let attn_output := MultiHeadAttention.forward P.self_attn x x x self_mask
  let norm_layer1 :=
    LayerNorm.forward P.norm1 (fun b l k => x b l k + P.dropout (attn_output b l k))
  let cross_attn_output :=
    MultiHeadAttention.forward P.cross_attn norm_layer1 encoder_output
      encoder_output cross_mask
  let norm_layer2 :=
    LayerNorm.forward P.norm2
      (fun b l k => norm_layer1 b l k + P.dropout (cross_attn_output b l k))
  let ffn_output := FeedForward.forward P.ffn norm_layer2
  match DecoderLayer.dropout_attr P "Dropout" with
  | some dp =>
    .ok (LayerNorm.forward P.norm3
      (fun b l k => norm_layer2 b l k + dp (ffn_output b l k)))
  | none => .error .attributeError

/-! ## Theorems -/

/-- C1: the claim states the decoder's cross-attention takes its query
from the normalized self-attention output `x1` and key/value from
`enc_out`, so its output has the target sequence length.  The code
passes `(norm_layer1, encoder_output, encoder_output)` into
`forward(x_k, x_q, x_v, mask)`, so the query is derived from `enc_out`
and the key from `x1`; with target length 2 and source length 3
(`d_model = 4`, `num_heads = 2`) the attention-probability/value matmul
has mismatched inner dimensions and the call fails instead of returning
a target-length tensor. -/
theorem decoder_cross_attention_argument_swap :
    decoderCrossAttn_shape 1 2 3 4 2 = none := by decide

/-- C2: the claim states `MultiHeadAttention(d_model, num_heads)`
succeeds whenever `num_heads` divides `d_model`.  The validation
`assert head_dim * num_heads == d_model` reads the bare name `head_dim`,
which the scope never binds (only `self.head_dim` is assigned), so the
constructor raises `NameError` even on the divisible input
`d_model = 8`, `num_heads = 2`. -/
theorem mha_init_always_raises_nameError :
    8 % 2 = 0 ∧ mhaInit 8 2 = Except.error PyError.nameError :=
  ⟨rfl, rfl⟩

/-- C3: the claim states the positional-encoding multiplier applied to
`pos` equals `10000 ^ (-2 i / d_model)`.  The source computes
`torch.exp(torch.arange(0, d_model, 2)).float() * (-math.log(10000)/d_model)`,
i.e. `exp(2 i) * (-log(10000)/d_model)`, which at `d_model = 2`, `i = 0`
is `-log(10000)/2 < 0` whereas the specified multiplier is `1`. -/
theorem positional_encoding_divterm_mismatch :
    codeDivTerm 2 0 ≠ specDivTerm 2 0 := by
  have h1 : codeDivTerm 2 0 < 0 := by
    unfold codeDivTerm
    push_cast
    rw [mul_zero, Real.exp_zero, one_mul]
    have hlog : (0 : ℝ) < Real.log 10000 / 2 := by
      have := Real.log_pos (show (1 : ℝ) < 10000 by norm_num)
      positivity
    linarith
  have h2 : specDivTerm 2 0 = 1 := by
    unfold specDivTerm
    rw [show -(2 * ((0 : ℕ) : ℝ)) / ((2 : ℕ) : ℝ) = 0 by push_cast; ring,
      Real.rpow_zero]
  rw [h2]
  exact ne_of_lt (lt_trans h1 one_pos)

/-- C4: the claim states `DecoderLayer.forward` completes and returns
`layer_norm_3(x2 + dropout(ff))` using the layer's dropout.  The final
residual step calls `self.Dropout(ffn_output)`, but the instance's only
such attribute is `dropout`, so every invocation raises
`AttributeError` instead of returning a value. -/
theorem decoder_forward_always_attributeError {B L H hd dff : ℕ}
    (P : DecoderLayer H hd dff) (x encoder_output : T3 B L (H * hd))
    (self_mask cross_mask : Option (T4 B H L L)) :
    DecoderLayer.forward P x encoder_output self_mask cross_mask =
      Except.error PyError.attributeError := rfl

/-- C5: the claim states `FeedForward(d_model, d_ff)` always constructs
successfully.  The second layer is built as `nn.Linear(dff, d_model)`,
reading the bare name `dff` which the scope never binds (the parameter
is `d_ff`), so construction raises `NameError`, here at
`d_model = 4`, `d_ff = 16`. -/
theorem feedforward_init_raises_nameError :
    ffInit 4 16 = Except.error PyError.nameError := rfl

/-- C9: the claim states `EncoderLayer.forward` invokes self-attention
with no mask, so with a deterministic dropout its result does not depend
on the mask argument.  The source calls `self.self_attn(x, x, x)`
without forwarding `mask`, so the result is identical for any two mask
arguments (in particular with dropout acting as the identity). -/
theorem encoder_forward_mask_independent {B L H hd dff : ℕ}
    (P : EncoderLayer H hd dff) (x : T3 B L (H * hd))
    (m1 m2 : Option (T4 B H L L)) :
    EncoderLayer.forward P x m1 = EncoderLayer.forward P x m2 := rfl

/-- A `PositionalEncoding` instance with `max_len = 1` and identity
dropout. -/
def pe_maxlen1 : PositionalEncoding := ⟨2, 1, id⟩

/-- A zero input of sequence length 2 (exceeding `max_len = 1`). -/
noncomputable def x_len2 : T3 1 2 2 := fun _ _ _ => 0

/-- C7 counterexample: the claim states `PositionalEncoding.forward`
fails whenever `L > max_len`.  With `max_len = 1` and `L = 2` the sliced
table has sequence dimension 1, broadcasts against the input, and the
call returns successfully. -/
theorem pe_forward_overlength_succeeds_at_maxlen_one :
    exceptOk (PositionalEncoding.forward pe_maxlen1 x_len2) = true := rfl

/-- C7 (amended): `PositionalEncoding.forward` returns
`dropout(x + pe[:L])` whenever `L ≤ max_len`, and raises a broadcast
error whenever `L > max_len` *and* `max_len ≠ 1`; in the remaining case
`max_len = 1 < L` the length-1 table slice broadcasts and the call
silently succeeds. -/
theorem pe_forward_amended {B L : ℕ}
    (M : PositionalEncoding) (x : T3 B L M.d_model) :
    (L ≤ M.max_len →
      PositionalEncoding.forward M x =
        .ok (fun b l k =>
          M.dropout (x b l k + codePe M.d_model (l.val) (k.val)))) ∧
    (M.max_len < L → M.max_len ≠ 1 →
      PositionalEncoding.forward M x = .error .broadcastError) := by
  constructor
  · intro hL
    have hmin : min L M.max_len = L := min_eq_left hL
    simp only [PositionalEncoding.forward, hmin]
    rw [if_pos (Or.inl trivial)]
    congr 1
    funext b l k
    rw [Nat.mod_eq_of_lt l.isLt]
  · intro h1 h2
    have hmin : min L M.max_len = M.max_len := min_eq_right (le_of_lt h1)
    simp only [PositionalEncoding.forward, hmin]
    rw [if_neg]
    push_neg
    exact ⟨ne_of_lt h1, h2⟩

/-- A `PositionalEncoding` instance with `max_len = 3`. -/
def pe_w1 : PositionalEncoding := ⟨2, 3, id⟩

/-- A zero input of sequence length 2. -/
noncomputable def x_w1 : T3 1 2 2 := fun _ _ _ => 0

/-- A `PositionalEncoding` instance with `max_len = 2`. -/
def pe_w2 : PositionalEncoding := ⟨2, 2, id⟩

/-- A zero input of sequence length 3. -/
noncomputable def x_w2 : T3 1 3 2 := fun _ _ _ => 0

/-- Witness for the amended C7 theorem at concrete instances: a
length-2 input against `max_len = 3` succeeds with the table added, and
a length-3 input against `max_len = 2` raises the broadcast error. -/
theorem pe_forward_amended_witness :
    PositionalEncoding.forward pe_w1 x_w1 =
      .ok (fun b l k =>
        pe_w1.dropout (x_w1 b l k + codePe pe_w1.d_model (l.val) (k.val))) ∧
    PositionalEncoding.forward pe_w2 x_w2 = .error .broadcastError :=
  ⟨(pe_forward_amended pe_w1 x_w1).1 (by decide),
   (pe_forward_amended pe_w2 x_w2).2 (by decide) (by decide)⟩

/-- A constant query tensor (one query position, one head, head
dimension 1). -/
noncomputable def Qc8 : T4 1 1 1 1 := fun _ _ _ _ => 1

/-- Keys whose unmasked position has raw similarity score `-1e9`. -/
noncomputable def Kc8 : T4 1 1 2 1 := fun _ _ j _ =>
  if j.val = 0 then 7 else -(1e9 : ℝ)

/-- A mask forbidding key position 0 and allowing key position 1. -/
noncomputable def maskC8 : T4 1 1 1 2 := fun _ _ _ j =>
  if j.val = 0 then 0 else 1

/-- C8 counterexample: the claim states the post-softmax probability of
a masked key position is below a small epsilon regardless of the
magnitude of the unmasked scores.  With the unmasked score equal to
`-1e9` (query 1, key `-1e9`, `head_dim = 1`), the masked position
receives probability exactly `1/2`, which is not below any small
epsilon. -/
theorem masked_probability_not_small_counterexample :
    maskC8 0 0 0 0 = 0 ∧
    MultiHeadAttention.attn_probs Qc8 Kc8 (some maskC8) 0 0 0 0 = 1 / 2 ∧
    ¬ MultiHeadAttention.attn_probs Qc8 Kc8 (some maskC8) 0 0 0 0
        < 1 / 1000000 := by
  have hscore : ∀ j : Fin 2,
      MultiHeadAttention.masked_scores
        (MultiHeadAttention.attn_scores Qc8 Kc8) (some maskC8) 0 0 0 j =
        -(1e9 : ℝ) := by
    intro j
    fin_cases j <;>
      simp [MultiHeadAttention.masked_scores, MultiHeadAttention.attn_scores,
        Qc8, Kc8, maskC8, Real.sqrt_one, Fin.sum_univ_one]
  have hprob : MultiHeadAttention.attn_probs Qc8 Kc8 (some maskC8) 0 0 0 0
      = 1 / 2 := by
    unfold MultiHeadAttention.attn_probs softmax_last
    rw [Fin.sum_univ_two, hscore 0, hscore 1]
    have h2 : Real.exp (-(1e9 : ℝ)) + Real.exp (-(1e9 : ℝ)) ≠ 0 := by
      positivity
    field_simp
    ring
  refine ⟨by simp [maskC8], hprob, ?_⟩
  rw [hprob]
  norm_num

/-- C8 (amended): with a mask entry of 0 at key position `j`, the
attention probability assigned to `j` is below `ε` *provided* some
unmasked key position has raw score exceeding `-1e9 + log(1/ε)`; the
"regardless of magnitude" clause of the claim fails when every unmasked
score is itself on the order of `-1e9` or below. -/
theorem masked_probability_small_amended {B H Lq Lk hd : ℕ}
    (Q : T4 B H Lq hd) (K : T4 B H Lk hd) (m : T4 B H Lq Lk)
    (b : Fin B) (h : Fin H) (i : Fin Lq) (j j2 : Fin Lk)
    (hj : m b h i j = 0) (hj2 : m b h i j2 ≠ 0) (ε : ℝ) (hε : 0 < ε)
    (hs : -(1e9 : ℝ) + Real.log (1 / ε) <
      MultiHeadAttention.attn_scores Q K b h i j2) :
    MultiHeadAttention.attn_probs Q K (some m) b h i j < ε := by
  set s := MultiHeadAttention.masked_scores
    (MultiHeadAttention.attn_scores Q K) (some m) with hsdef
  have hsj : s b h i j = -(1e9 : ℝ) := by
    simp [hsdef, MultiHeadAttention.masked_scores, hj]
  have hsj2 : s b h i j2 = MultiHeadAttention.attn_scores Q K b h i j2 := by
    simp [hsdef, MultiHeadAttention.masked_scores, hj2]
  have hS : Real.exp (s b h i j2) ≤ ∑ j3, Real.exp (s b h i j3) :=
    Finset.single_le_sum (fun k _ => (Real.exp_pos _).le) (Finset.mem_univ j2)
  unfold MultiHeadAttention.attn_probs softmax_last
  rw [← hsdef, hsj]
  have key : Real.exp (-(1e9 : ℝ)) / ∑ j3, Real.exp (s b h i j3) ≤
      Real.exp (-(1e9 : ℝ)) / Real.exp (s b h i j2) := by
    gcongr
  have key2 : Real.exp (-(1e9 : ℝ)) / Real.exp (s b h i j2) < ε := by
    rw [← Real.exp_sub]
    have hlt : -(1e9 : ℝ) - s b h i j2 < Real.log ε := by
      have hlog : Real.log (1 / ε) = -Real.log ε := by
        rw [one_div, Real.log_inv]
      rw [hlog] at hs
      rw [hsj2]
      linarith
    calc Real.exp (-(1e9 : ℝ) - s b h i j2)
        < Real.exp (Real.log ε) := Real.exp_lt_exp.mpr hlt
      _ = ε := Real.exp_log hε
  exact lt_of_le_of_lt key key2

/-- A constant query for the C8 witness. -/
noncomputable def Qw8 : T4 1 1 1 1 := fun _ _ _ _ => 1

/-- Keys for the C8 witness: the unmasked position has raw score 0. -/
noncomputable def Kw8 : T4 1 1 2 1 := fun _ _ j _ =>
  if j.val = 0 then 5 else 0

/-- A mask forbidding key position 0 and allowing key position 1. -/
noncomputable def maskW8 : T4 1 1 1 2 := fun _ _ _ j =>
  if j.val = 0 then 0 else 1

/-- Witness for the amended C8 theorem at a concrete input with
`ε = 1`: position 0 is masked, position 1 is unmasked with raw score
`0 > -1e9 + log(1/1)`, and the masked probability is below 1. -/
theorem masked_probability_small_amended_witness :
    maskW8 0 0 0 0 = 0 ∧ maskW8 0 0 0 1 ≠ 0 ∧ (0 : ℝ) < 1 ∧
    -(1e9 : ℝ) + Real.log (1 / 1) <
      MultiHeadAttention.attn_scores Qw8 Kw8 0 0 0 1 ∧
    MultiHeadAttention.attn_probs Qw8 Kw8 (some maskW8) 0 0 0 0 < 1 := by
  have h1 : maskW8 0 0 0 0 = 0 := by simp [maskW8]
  have h2 : maskW8 0 0 0 1 ≠ 0 := by simp [maskW8]
  have h4 : -(1e9 : ℝ) + Real.log (1 / 1) <
      MultiHeadAttention.attn_scores Qw8 Kw8 0 0 0 1 := by
    simp [MultiHeadAttention.attn_scores, Qw8, Kw8, Real.sqrt_one,
      Fin.sum_univ_one, Real.log_one]
    norm_num
  exact ⟨h1, h2, one_pos, h4,
    masked_probability_small_amended Qw8 Kw8 maskW8 0 0 0 0 1 h1 h2 1
      one_pos h4⟩

/-- Shape of `MultiHeadAttention._project` on a rank-3 input
`[B, L, d]` when `H` divides `d` and the head dimension is `d / H`. -/
lemma project_shape_eval (B L d H : ℕ) (hB : 0 < B) (hH : 0 < H)
    (hd0 : 0 < d) (hdvd : H ∣ d) :
    project_shape d H (d / H) [B, L, d] = some [B, H, L, d / H] := by
  have hmul : H * (d / H) = d := Nat.mul_div_cancel' hdvd
  have hne : B * H * (d / H) ≠ 0 := by
    rw [mul_assoc, hmul]
    exact Nat.mul_ne_zero (by omega) (by omega)
  have hdvd2 : B * H * (d / H) ∣ B * L * d := by
    rw [mul_assoc, hmul]
    exact ⟨L, by ring⟩
  have hden : B * H * (d / H) = B * d := by rw [mul_assoc, hmul]
  have hq : B * L * d / (B * H * (d / H)) = L := by
    rw [hden, show B * L * d = B * d * L from by ring,
      Nat.mul_div_cancel_left _ (Nat.mul_pos hB hd0)]
  simp [project_shape, linear3_shape, view3to4_shape, transpose12_shape,
    hne, hdvd2, hq]

/-- Shape of the full `MultiHeadAttention.forward` when the key and
value inputs share length `Lk` and the query input has length `Lq`: the
output keeps the *query* input's length. -/
lemma mhaForward_shape_eval (B Lk Lq d H : ℕ) (hB : 0 < B) (hH : 0 < H)
    (hd0 : 0 < d) (hdvd : H ∣ d) :
    mhaForward_shape d H (d / H) [B, Lk, d] [B, Lq, d] [B, Lk, d] none =
      some [B, Lq, d] := by
  have hprojq := project_shape_eval B Lq d H hB hH hd0 hdvd
  have hprojk := project_shape_eval B Lk d H hB hH hd0 hdvd
  have hmul : H * (d / H) = d := Nat.mul_div_cancel' hdvd
  have hne : B * d ≠ 0 := Nat.mul_ne_zero (by omega) (by omega)
  have hkey : B * Lq * H * (d / H) = B * d * Lq := by
    calc B * Lq * H * (d / H) = B * Lq * (H * (d / H)) := by ring
      _ = B * Lq * d := by rw [hmul]
      _ = B * d * Lq := by ring
  have hdvd2 : B * d ∣ B * Lq * H * (d / H) := ⟨Lq, by rw [hkey]⟩
  have hq2 : B * Lq * H * (d / H) / (B * d) = Lq := by
    rw [hkey, Nat.mul_div_cancel_left _ (Nat.mul_pos hB hd0)]
  simp [mhaForward_shape, hprojq, hprojk, sdpa_shape, transposeLast2_shape,
    matmul4_shape, maskedFill_shape, transpose12_shape, view4to3_shape,
    linear3_shape, hne, hdvd2, hq2]

/-- C6: for every batch size `B > 0`, sequence length `L`, `d_model = d`
and `num_heads = H` dividing `d`, `MultiHeadAttention.forward` applied
in self-attention fashion (all three inputs of shape `[B, L, d]`)
returns a tensor of shape `[B, L, d]`. -/
theorem mha_self_attention_output_shape (B L d H : ℕ) (hB : 0 < B)
    (hH : 0 < H) (hd0 : 0 < d) (hdvd : H ∣ d) :
    mhaForward_shape d H (d / H) [B, L, d] [B, L, d] [B, L, d] none =
      some [B, L, d] :=
  mhaForward_shape_eval B L L d H hB hH hd0 hdvd

/-- Witness for C6 at `B = 2`, `L = 3`, `d = 4`, `H = 2`. -/
theorem mha_self_attention_output_shape_witness :
    0 < 2 ∧ 0 < 4 ∧ 2 ∣ 4 ∧
    mhaForward_shape 4 2 (4 / 2) [2, 3, 4] [2, 3, 4] [2, 3, 4] none =
      some [2, 3, 4] :=
  ⟨by decide, by decide, by decide,
    mha_self_attention_output_shape 2 3 4 2 (by decide) (by decide)
      (by decide) (by decide)⟩

/-- C10: `MultiHeadAttention.forward` takes its tensor inputs in the
positional order `(x_k, x_q, x_v)`.  First part: with key/value length
`Lk` and query length `Lq`, the output's sequence length is that of the
*second* positional argument.  Second part: when the `W_q` projection is
zero the output is unchanged by any change to the second positional
argument's values, i.e. the second argument is the one consumed through
`W_q`. -/
theorem mha_positional_order_key_query_value :
    (∀ B Lk Lq d H : ℕ, 0 < B → 0 < H → 0 < d → H ∣ d →
      mhaForward_shape d H (d / H) [B, Lk, d] [B, Lq, d] [B, Lk, d] none =
        some [B, Lq, d]) ∧
    (∀ (B Lk Lq H hd : ℕ) (M : MultiHeadAttention H hd),
      (∀ o j, M.W_q.w o j = 0) → (∀ o, M.W_q.b o = 0) →
      ∀ (x_k : T3 B Lk (H * hd)) (x_q x_q2 : T3 B Lq (H * hd))
        (x_v : T3 B Lk (H * hd)) (mask : Option (T4 B H Lq Lk)),
        MultiHeadAttention.forward M x_k x_q x_v mask =
          MultiHeadAttention.forward M x_k x_q2 x_v mask) := by
  constructor
  · intro B Lk Lq d H hB hH hd0 hdvd
    exact mhaForward_shape_eval B Lk Lq d H hB hH hd0 hdvd
  · intro B Lk Lq H hd M hw hb x_k x_q x_q2 x_v mask
    have hP : MultiHeadAttention._project x_q M.W_q =
        MultiHeadAttention._project x_q2 M.W_q := by
      funext b h l k
      simp [MultiHeadAttention._project, linApp, hw, hb]
    simp only [MultiHeadAttention.forward, hP]

/-- An all-zero `MultiHeadAttention` parameter set with 2 heads of
dimension 1. -/
noncomputable def Mzero : MultiHeadAttention 2 1 :=
  ⟨⟨fun _ _ => 0, fun _ => 0⟩, ⟨fun _ _ => 0, fun _ => 0⟩,
   ⟨fun _ _ => 0, fun _ => 0⟩, ⟨fun _ _ => 0, fun _ => 0⟩⟩

/-- Key/value input of length 3 for the C10 witness. -/
noncomputable def xw_k : T3 1 3 (2 * 1) := fun _ _ _ => 0

/-- First query input of length 2 for the C10 witness. -/
noncomputable def xw_q : T3 1 2 (2 * 1) := fun _ _ _ => 1

/-- Second query input of length 2 for the C10 witness. -/
noncomputable def xw_q2 : T3 1 2 (2 * 1) := fun _ _ _ => 2

/-- Value input of length 3 for the C10 witness. -/
noncomputable def xw_v : T3 1 3 (2 * 1) := fun _ _ _ => 0

/-- Witness for C10: concrete shapes with differing key and query
lengths (3 and 2), and a concrete zero-`W_q` instance on two different
query inputs. -/
theorem mha_positional_order_key_query_value_witness :
    mhaForward_shape 4 2 (4 / 2) [1, 3, 4] [1, 2, 4] [1, 3, 4] none =
      some [1, 2, 4] ∧
    MultiHeadAttention.forward Mzero xw_k xw_q xw_v none =
      MultiHeadAttention.forward Mzero xw_k xw_q2 xw_v none :=
  ⟨mha_positional_order_key_query_value.1 1 3 2 4 2 (by decide) (by decide)
      (by decide) (by decide),
   mha_positional_order_key_query_value.2 1 3 2 2 1 Mzero (fun _ _ => rfl)
      (fun _ => rfl) xw_k xw_q xw_q2 xw_v none⟩
